import Mathlib

/-!
Verification of the BeatMarker Pro marker timeline and export service.

The application state and its mutation operations are embedded from
`src/App.tsx`; the export service is embedded from the export source file
(`exportMarkers`).  JavaScript numbers are modelled as rationals, and the
stable `Array.prototype.sort` used by the app is modelled by Mathlib's
stable insertion sort (stable sorts agree extensionally, so this is the
same function on lists).
-/

namespace BeatMarker

/-- Analysis configuration, from the `AnalysisConfig` state in `App.tsx`. -/
structure AnalysisConfig where
  sensitivity : ℚ
  minDistance : ℚ
  aggressiveMode : Bool
deriving DecidableEq, Repr

/-- A timeline marker, from the `Marker` record created in `App.tsx`
(fields `id`, `time`, `label`, `color`). -/
structure Marker where
  id : String
  time : ℚ
  label : String
  color : String
deriving DecidableEq, Repr

/-- The React state of `App.tsx` that the marker timeline lives in:
`file`, `audioBuffer` (modelled as a loaded flag), `markers`,
`isAnalyzing`, `showHelp`, `selectedMarkerId`, `config`, `currentTime`,
`isPlaying`. -/
structure AppState where
  file : Option String
  audioLoaded : Bool
  markers : List Marker
  isAnalyzing : Bool
  showHelp : Bool
  selectedMarkerId : Option String
  config : AnalysisConfig
  currentTime : ℚ
  isPlaying : Bool
deriving DecidableEq, Repr

/-- The initial `useState` values of `App.tsx`: no file, no markers, not
analyzing, nothing selected, config `{sensitivity: 0.7, minDistance: 0.25,
aggressiveMode: false}`, time 0, paused. -/
def initState : AppState :=
  { file := none
    audioLoaded := false
    markers := []
    isAnalyzing := false
    showHelp := false
    selectedMarkerId := none
    config := { sensitivity := 7/10, minDistance := 1/4, aggressiveMode := false }
    currentTime := 0
    isPlaying := false }

/-- Ordering of markers by their `time` field: the comparator
`(a, b) => a.time - b.time` passed to `sort` in `addMarkerManual`. -/
def timeLE (a b : Marker) : Prop := a.time ≤ b.time

instance : DecidableRel timeLE := fun a b => inferInstanceAs (Decidable (a.time ≤ b.time))

instance : IsTotal Marker timeLE := ⟨fun a b => le_total a.time b.time⟩

instance : IsTrans Marker timeLE := ⟨fun _ _ _ h h' => le_trans h h'⟩

instance : IsRefl Marker timeLE := ⟨fun a => le_refl a.time⟩

/-- The stable sort by `time` applied in `addMarkerManual`
(`.sort((a, b) => a.time - b.time)`; JavaScript guarantees a stable sort,
modelled by the stable insertion sort). -/
def sortMarkers (l : List Marker) : List Marker := l.insertionSort timeLE

/-- A marker list sorted ascending by `time`. -/
def sortedByTime (l : List Marker) : Prop := l.Sorted timeLE

instance (l : List Marker) : Decidable (sortedByTime l) :=
  inferInstanceAs (Decidable (l.Pairwise timeLE))

/-- `handleFileUpload` in `App.tsx`: stores the file, decodes the audio
buffer, resets the markers (`setMarkers([])`) and the selection. -/
def handleFileUpload (name : String) (s : AppState) : AppState :=
  { s with file := some name, audioLoaded := true, markers := [], selectedMarkerId := none }

/-- Net effect of a completed `runAnalysis` in `App.tsx`: guarded by
`if (!audioBuffer) return;`, then `setMarkers(detected)` and finally
`setIsAnalyzing(false)`.  The detected list produced by `analyzeBeats` is
passed in as a parameter. -/
def runAnalysis (detected : List Marker) (s : AppState) : AppState :=
  if s.audioLoaded then { s with markers := detected, isAnalyzing := false } else s

/-- `deleteMarker` in `App.tsx`:
`setMarkers(prev => prev.filter(m => m.id !== id))`, and
`if (selectedMarkerId === id) setSelectedMarkerId(null)`. -/
def deleteMarker (i : String) (s : AppState) : AppState :=
  { s with markers := s.markers.filter (fun m => m.id != i)
           selectedMarkerId := if s.selectedMarkerId = some i then none else s.selectedMarkerId }

/-- Rounding to three decimal places: `parseFloat(t.toFixed(3))`.
`toFixed` rounds to the nearest thousandth, choosing the larger value on a
tie, which is `round` (round half up). -/
def roundTo3 (t : ℚ) : ℚ := (round (t * 1000) : ℚ) / 1000

/-- The marker record built by `addMarkerManual` in `App.tsx`: the id is the
freshly generated random string `Math.random().toString(36).substr(2, 9)`
(passed in as a parameter), `time: parseFloat(currentTime.toFixed(3))`,
`label` is the literal `Manual Beat`, `color` is `#ec4899`. -/
def newManualMarker (rnd : String) (t : ℚ) : Marker :=
  { id := rnd, time := roundTo3 t, label := "Manual Beat", color := "#ec4899" }

/-- `addMarkerManual` in `App.tsx`:
`setMarkers(prev => [...prev, newMarker].sort((a, b) => a.time - b.time))`. -/
def addMarkerManual (rnd : String) (s : AppState) : AppState :=
  { s with markers := sortMarkers (s.markers ++ [newManualMarker rnd s.currentTime]) }

/-- The `Borrar Todo` button in `App.tsx`:
`setMarkers([]); setSelectedMarkerId(null)`. -/
def clearAllMarkers (s : AppState) : AppState :=
  { s with markers := [], selectedMarkerId := none }

/-- `jumpToMarker` in `App.tsx` (state part): selects the marker and moves
the playhead to its time. -/
def jumpToMarker (i : String) (t : ℚ) (s : AppState) : AppState :=
  { s with selectedMarkerId := some i, currentTime := t }

/-- Playback progress (`updateProgress` in `togglePlayback`):
`setCurrentTime(elapsed)`. -/
def playbackTick (t : ℚ) (s : AppState) : AppState :=
  { s with currentTime := t }

/-- A config slider change (`setConfig`). -/
def setConfig (c : AnalysisConfig) (s : AppState) : AppState :=
  { s with config := c }

/-- States of `App.tsx` reachable from the initial state through the
state mutations of the component.  The list delivered by `analyzeBeats`
is not part of `src/`; following the spec (accepted markers are strictly
ordered ascending by `time`, with no duplicate `id`), the analysis step
admits any list that is strictly ascending in time. -/
inductive Reachable : AppState → Prop where
  | init : Reachable initState
  | upload (name : String) {s : AppState} :
      Reachable s → Reachable (handleFileUpload name s)
  | analysis {detected : List Marker} {s : AppState} :
      detected.Pairwise (fun a b => a.time < b.time) →
      Reachable s → Reachable (runAnalysis detected s)
  | insert (rnd : String) {s : AppState} :
      Reachable s → Reachable (addMarkerManual rnd s)
  | delete (i : String) {s : AppState} :
      Reachable s → Reachable (deleteMarker i s)
  | clear {s : AppState} : Reachable s → Reachable (clearAllMarkers s)
  | jump (i : String) (t : ℚ) {s : AppState} :
      Reachable s → Reachable (jumpToMarker i t s)
  | tick (t : ℚ) {s : AppState} : Reachable s → Reachable (playbackTick t s)
  | reconfig (c : AnalysisConfig) {s : AppState} :
      Reachable s → Reachable (setConfig c s)

/-- States of `App.tsx` reachable when every generated marker id is fresh:
the manual-insertion step only fires with an id not already in the
timeline, and `analyzeBeats` output (not under `src/`; modelled from the
spec: accepted markers have no duplicate `id`) is duplicate-free.  This is
the collision-free idealisation of `Math.random().toString(36)`. -/
inductive ReachableFresh : AppState → Prop where
  | init : ReachableFresh initState
  | upload (name : String) {s : AppState} :
      ReachableFresh s → ReachableFresh (handleFileUpload name s)
  | analysis {detected : List Marker} {s : AppState} :
      (detected.map Marker.id).Nodup →
      ReachableFresh s → ReachableFresh (runAnalysis detected s)
  | insert {rnd : String} {s : AppState} :
      rnd ∉ s.markers.map Marker.id →
      ReachableFresh s → ReachableFresh (addMarkerManual rnd s)
  | delete (i : String) {s : AppState} :
      ReachableFresh s → ReachableFresh (deleteMarker i s)
  | clear {s : AppState} : ReachableFresh s → ReachableFresh (clearAllMarkers s)
  | jump (i : String) (t : ℚ) {s : AppState} :
      ReachableFresh s → ReachableFresh (jumpToMarker i t s)
  | tick (t : ℚ) {s : AppState} : ReachableFresh s → ReachableFresh (playbackTick t s)
  | reconfig (c : AnalysisConfig) {s : AppState} :
      ReachableFresh s → ReachableFresh (setConfig c s)

/-- A sample detected-marker list, as `analyzeBeats` would produce. -/
def demoDetected : List Marker :=
  [{ id := "b1", time := 1, label := "Beat 1", color := "#3b82f6" },
   { id := "b2", time := 2, label := "Beat 2", color := "#8b5cf6" }]

/-- A state with the audio loaded. -/
def demoLoaded : AppState := handleFileUpload "song.mp3" initState

/-- A loaded state whose selection points at an id that no detected marker
carries. -/
def demoStale : AppState := jumpToMarker "ghost" 2 demoLoaded

/-- The first marker of the two-marker demo timeline (time 1.0). -/
def demoM1 : Marker := { id := "m1", time := 1, label := "Beat 1", color := "#3b82f6" }

/-- A timeline holding markers at times 1.0 and 3.0, playhead at 2.0. -/
def demoTimeline : AppState :=
  { demoLoaded with
      markers := [demoM1, { id := "m3", time := 3, label := "Beat 2", color := "#8b5cf6" }]
      currentTime := 2 }

/-- The state reached by pressing the manual-marker button twice while the
random id generator happens to return the same string both times. -/
def dupState : AppState := addMarkerManual "dup" (addMarkerManual "dup" initState)

/-- The export formats supported by `exportMarkers` (the `ExportFormat`
selector). -/
inductive ExportFormat where
  | PREMIERE_XML
  | AFTER_EFFECTS_JS
  | FINAL_CUT_XML
deriving DecidableEq, Repr

/-- The frame number written into the Premiere XML `<in>`/`<out>` tags:
`Math.round(m.time * timebase)` with `const timebase = 60`. -/
def premiereFrame (t : ℚ) : ℤ := round (t * 60)

/-- The time position, in seconds, that each export format encodes for a
marker at time `t`: the Premiere XML stores the whole frame count
`round(t * 60)`, which denotes the position `frame / 60`; the After
Effects script (`markers[i].time`) and the Final Cut XML
(`start="${m.time}s"`) store the time itself. -/
def encodedExportTime : ExportFormat → ℚ → ℚ
  | ExportFormat.PREMIERE_XML, t => (premiereFrame t : ℚ) / 60
  | ExportFormat.AFTER_EFFECTS_JS, t => t
  | ExportFormat.FINAL_CUT_XML, t => t

/-- JavaScript `Array.prototype.join(sep)`. -/
def joinSep (sep : String) : List String → String
  | [] => ""
  | [s] => s
  | s :: rest => s ++ sep ++ joinSep sep rest

/-- Hexadecimal digit, for the `\u00XX` escapes of `JSON.stringify`. -/
def hexDigit (n : Nat) : Char :=
  if n < 10 then Char.ofNat (48 + n) else Char.ofNat (87 + n)

/-- The escape `JSON.stringify` applies to a single character of a string
value. -/
def jsonEscapeChar (c : Char) : String :=
  if c = '"' then "\\\""
  else if c = '\\' then "\\\\"
  else if c = '\n' then "\\n"
  else if c = '\r' then "\\r"
  else if c = '\t' then "\\t"
  else if c = Char.ofNat 8 then "\\b"
  else if c = Char.ofNat 12 then "\\f"
  else if c.toNat < 32 then
    "\\u00" ++ String.mk [hexDigit (c.toNat / 16), hexDigit (c.toNat % 16)]
  else String.singleton c

/-- The body of `JSON.stringify` of a string, without the surrounding
quotes. -/
def jsonEscape (s : String) : String := String.join (s.data.map jsonEscapeChar)

/-- `JSON.stringify` of a string value. -/
def jsonString (s : String) : String := "\"" ++ jsonEscape s ++ "\""

/-- `JSON.stringify` of one marker object (property insertion order `id`,
`time`, `label`, `color`), with the number-to-string conversion of the
`time` field kept abstract as `tr`. -/
def jsonMarker (tr : ℚ → String) (m : Marker) : String :=
  "\x7b\"id\":" ++ jsonString m.id ++ ",\"time\":" ++ tr m.time
    ++ ",\"label\":" ++ jsonString m.label ++ ",\"color\":" ++ jsonString m.color ++ "\x7d"

/-- `JSON.stringify` of the marker array. -/
def jsonMarkers (tr : ℚ → String) (ms : List Marker) : String :=
  "[" ++ joinSep "," (ms.map (jsonMarker tr)) ++ "]"

/-- `fileName.split('.')[0]` in the export source. -/
def baseName (fileName : String) : String := (fileName.split (· == '.')).headD ""

/-- The `<marker>` element the Premiere XML export emits per marker. -/
def premiereMarkerXml (m : Marker) : String :=
  "\n        <marker>\n          <name>" ++ m.label
    ++ "</name>\n          <comment>Beat detectado por BeatMarker Pro</comment>\n          <in>"
    ++ toString (premiereFrame m.time) ++ "</in>\n          <out>"
    ++ toString (premiereFrame m.time) ++ "</out>\n        </marker>"

/-- The `PREMIERE_XML` artifact (Final Cut Pro 7 XMEML template of the
export source, markers joined with the empty separator). -/
def premiereContent (ms : List Marker) (fileName : String) : String :=
  "<?xml version=\"1.0\" encoding=\"UTF-8\"?>\n<!DOCTYPE xmeml>\n<xmeml version=\"4\">\n  <project>\n    <name>BeatMarker Pro Export</name>\n    <children>\n      <sequence>\n        <name>"
    ++ baseName fileName
    ++ "_Sequence</name>\n        <rate>\n          <timebase>60</timebase>\n          <ntsc>FALSE</ntsc>\n        </rate>\n        <media>\n          <video>\n            <track></track>\n          </video>\n        </media>\n        "
    ++ joinSep "" (ms.map premiereMarkerXml)
    ++ "\n      </sequence>\n    </children>\n  </project>\n</xmeml>"

/-- The `AFTER_EFFECTS_JS` artifact: the script embeds
`JSON.stringify(markers)` verbatim. -/
def jsxContent (tr : ℚ → String) (ms : List Marker) : String :=
  "(function() \x7b\n  var layer = app.project.activeItem.selectedLayers[0];\n  if (!layer) \x7b alert(\"¡Selecciona una capa primero!\"); return; \x7d\n  var markers = "
    ++ jsonMarkers tr ms
    ++ ";\n  app.beginUndoGroup(\"Apply Beat Markers\");\n  for (var i = 0; i < markers.length; i++) \x7b\n    var myMarker = new MarkerValue(markers[i].label);\n    layer.property(\"Marker\").setValueAtTime(markers[i].time, myMarker);\n  \x7d\n  app.endUndoGroup();\n\x7d)();"

/-- The `<marker .../>` element the Final Cut XML export emits per
marker. -/
def fcpMarkerXml (tr : ℚ → String) (m : Marker) : String :=
  "<marker start=\"" ++ tr m.time ++ "s\" duration=\"0s\" value=\"" ++ m.label ++ "\" />"

/-- The `FINAL_CUT_XML` artifact (fcpxml template of the export source,
markers joined with a newline and indentation). -/
def fcpContent (tr : ℚ → String) (ms : List Marker) : String :=
  "<?xml version=\"1.0\" encoding=\"UTF-8\"?>\n<fcpxml version=\"1.8\">\n  <resources>\n    <format id=\"r1\" name=\"FFVideoFormat1080p24\" frameDuration=\"100/2400s\"/>\n  </resources>\n  <library>\n    <event name=\"BeatMarker Export\">\n      <project name=\"Beat Markers\">\n        <sequence format=\"r1\" duration=\"3600s\">\n          <spine>\n            "
    ++ joinSep "\n            " (ms.map (fcpMarkerXml tr))
    ++ "\n          </spine>\n        </sequence>\n      </project>\n    </event>\n  </library>\n</fcpxml>"

/-- The text artifact `exportMarkers` produces for a format, a marker
list, the abstract number rendering and the audio file name. -/
def exportContent (fmt : ExportFormat) (ms : List Marker) (tr : ℚ → String)
    (fileName : String) : String :=
  match fmt with
  | ExportFormat.PREMIERE_XML => premiereContent ms fileName
  | ExportFormat.AFTER_EFFECTS_JS => jsxContent tr ms
  | ExportFormat.FINAL_CUT_XML => fcpContent tr ms

/-- Prefix test on character lists. -/
def listPre : List Char → List Char → Bool
  | [], _ => true
  | _ :: _, [] => false
  | a :: as, b :: bs => a == b && listPre as bs

/-- Occurrence of `needle` anywhere in a character list. -/
def listOccurs (needle : List Char) : List Char → Bool
  | [] => listPre needle []
  | c :: cs => listPre needle (c :: cs) || listOccurs needle cs

/-- Substring containment: the artifact `s` contains `sub` verbatim. -/
def containsStr (s sub : String) : Bool := listOccurs sub.data s.data

/-- A trivial stand-in for the JavaScript number-to-string conversion,
used where the artifact under scrutiny does not involve it. -/
def trivialRepr : ℚ → String := fun _ => "0"

/-- C2: a completed analysis run replaces the marker list by exactly the
detected list; every marker previously held (detected or manual) is
discarded. -/
theorem runAnalysis_replaces_all (detected : List Marker) (s : AppState)
    (h : s.audioLoaded = true) :
    (runAnalysis detected s).markers = detected := by
  simp [runAnalysis, h]

/-- Witness for `runAnalysis_replaces_all`: running the analysis over a
timeline that already holds a manual marker leaves exactly the detected
list. -/
theorem runAnalysis_replaces_all_witness :
    (runAnalysis demoDetected (addMarkerManual "old" demoLoaded)).markers = demoDetected :=
  runAnalysis_replaces_all demoDetected (addMarkerManual "old" demoLoaded) rfl

/-- C3: deleting an id absent from the timeline leaves the marker list
unchanged, and deleting the same id twice leaves the whole state after the
second call identical to the state after the first. -/
theorem deleteMarker_absent_noop (s : AppState) (i : String) :
    ((∀ m ∈ s.markers, m.id ≠ i) → (deleteMarker i s).markers = s.markers) ∧
      deleteMarker i (deleteMarker i s) = deleteMarker i s := by
  constructor
  · intro h
    simp only [deleteMarker]
    exact List.filter_eq_self.mpr fun m hm => by simpa using h m hm
  · have h1 : (s.markers.filter (fun m => m.id != i)).filter (fun m => m.id != i)
        = s.markers.filter (fun m => m.id != i) := by
      rw [List.filter_filter]
      congr 1
      funext m
      rw [Bool.and_self]
    have h2 : (if (if s.selectedMarkerId = some i then none else s.selectedMarkerId) = some i
          then none else (if s.selectedMarkerId = some i then none else s.selectedMarkerId))
        = (if s.selectedMarkerId = some i then none else s.selectedMarkerId) := by
      by_cases h : s.selectedMarkerId = some i <;> simp [h]
    simp [deleteMarker, h1, h2]

/-- Witness for `deleteMarker_absent_noop` at a concrete timeline and an
absent id. -/
theorem deleteMarker_absent_noop_witness :
    (deleteMarker "nope" demoTimeline).markers = demoTimeline.markers ∧
      deleteMarker "m1" (deleteMarker "m1" demoTimeline) = deleteMarker "m1" demoTimeline :=
  ⟨(deleteMarker_absent_noop demoTimeline "nope").1 (by decide),
   (deleteMarker_absent_noop demoTimeline "m1").2⟩

/-- C9: deleting a marker clears the selection exactly when the selection
held the deleted id, and leaves it unchanged otherwise. -/
theorem deleteMarker_selection (s : AppState) (i : String) :
    (s.selectedMarkerId = some i → (deleteMarker i s).selectedMarkerId = none) ∧
      (s.selectedMarkerId ≠ some i →
        (deleteMarker i s).selectedMarkerId = s.selectedMarkerId) := by
  constructor <;> intro h <;> simp [deleteMarker, h]

/-- Witness for `deleteMarker_selection`: deleting the selected marker
clears the selection; deleting another id keeps it. -/
theorem deleteMarker_selection_witness :
    (deleteMarker "ghost" demoStale).selectedMarkerId = none ∧
      (deleteMarker "other" demoStale).selectedMarkerId = some "ghost" :=
  ⟨(deleteMarker_selection demoStale "ghost").1 rfl,
   (deleteMarker_selection demoStale "other").2 (by decide)⟩

/-- C10: the manually inserted marker carries the fixed label
`Manual Beat`, the fixed color `#ec4899`, and the playhead time rounded to
three decimal places, and it is a member of the resulting timeline. -/
theorem addMarkerManual_constructs (rnd : String) (s : AppState) :
    (newManualMarker rnd s.currentTime).label = "Manual Beat" ∧
      (newManualMarker rnd s.currentTime).color = "#ec4899" ∧
      (newManualMarker rnd s.currentTime).time = (round (s.currentTime * 1000) : ℚ) / 1000 ∧
      newManualMarker rnd s.currentTime ∈ (addMarkerManual rnd s).markers := by
  refine ⟨rfl, rfl, rfl, ?_⟩
  simp [addMarkerManual, sortMarkers, List.mem_insertionSort]

/-- C8: a completed analysis run changes only the marker list and the
analysis-busy flag; in particular the selection is untouched, so it may
keep an id that no marker of the new timeline carries. -/
theorem runAnalysis_frame (detected : List Marker) (s : AppState) :
    (runAnalysis detected s).selectedMarkerId = s.selectedMarkerId ∧
      (runAnalysis detected s).file = s.file ∧
      (runAnalysis detected s).audioLoaded = s.audioLoaded ∧
      (runAnalysis detected s).showHelp = s.showHelp ∧
      (runAnalysis detected s).config = s.config ∧
      (runAnalysis detected s).currentTime = s.currentTime ∧
      (runAnalysis detected s).isPlaying = s.isPlaying ∧
      (s.audioLoaded = true →
        (runAnalysis detected s).markers = detected ∧
          (runAnalysis detected s).isAnalyzing = false) ∧
      (∀ i, s.selectedMarkerId = some i → (∀ m ∈ detected, m.id ≠ i) →
        s.audioLoaded = true →
        (runAnalysis detected s).selectedMarkerId = some i ∧
          ∀ m ∈ (runAnalysis detected s).markers, m.id ≠ i) := by
  unfold runAnalysis
  by_cases h : s.audioLoaded = true
  · refine ⟨by simp [h], by simp [h], by simp [h], by simp [h], by simp [h], by simp [h],
      by simp [h], fun _ => ⟨by simp [h], by simp [h]⟩, ?_⟩
    intro i hsel hdet _
    refine ⟨by simp [h, hsel], ?_⟩
    simpa [h] using hdet
  · have hb : s.audioLoaded = false := by simpa using h
    simp [hb]

/-- Witness for `runAnalysis_frame`: running the analysis with a stale
selection keeps the selection pointing at an id no new marker carries. -/
theorem runAnalysis_frame_witness :
    (runAnalysis demoDetected demoStale).selectedMarkerId = some "ghost" ∧
      ∀ m ∈ (runAnalysis demoDetected demoStale).markers, m.id ≠ "ghost" :=
  (runAnalysis_frame demoDetected demoStale).2.2.2.2.2.2.2.2 "ghost" rfl (by decide) rfl

/-- C1: in every reachable state the marker list is sorted ascending by
`time`, and each public mutation (bulk replacement by an analysis run,
manual insertion, single deletion, clear-all) preserves this ordering. -/
theorem timeline_sorted_invariant :
    (∀ s, Reachable s → sortedByTime s.markers) ∧
      (∀ rnd s, sortedByTime (addMarkerManual rnd s).markers) ∧
      (∀ i s, sortedByTime s.markers → sortedByTime (deleteMarker i s).markers) ∧
      (∀ (detected : List Marker) s, sortedByTime detected → sortedByTime s.markers →
        sortedByTime (runAnalysis detected s).markers) ∧
      (∀ s, sortedByTime (clearAllMarkers s).markers) := by
  have h2 : ∀ rnd s, sortedByTime (addMarkerManual rnd s).markers := fun rnd s =>
    List.sorted_insertionSort timeLE _
  have h3 : ∀ i s, sortedByTime s.markers → sortedByTime (deleteMarker i s).markers :=
    fun i s h => h.filter _
  have h4 : ∀ (detected : List Marker) s, sortedByTime detected → sortedByTime s.markers →
      sortedByTime (runAnalysis detected s).markers := by
    intro detected s hd hs
    unfold runAnalysis
    split
    · exact hd
    · exact hs
  have h1 : ∀ s, Reachable s → sortedByTime s.markers := by
    intro s hr
    induction hr with
    | init => exact List.sorted_nil
    | upload name _ ih => exact List.sorted_nil
    | analysis hdet _ ih => exact h4 _ _ (hdet.imp fun h => le_of_lt h) ih
    | insert rnd _ ih => exact h2 _ _
    | delete i _ ih => exact h3 _ _ ih
    | clear _ ih => exact List.sorted_nil
    | jump i t _ ih => exact ih
    | tick t _ ih => exact ih
    | reconfig c _ ih => exact ih
  exact ⟨h1, h2, h3, h4, fun _ => List.sorted_nil⟩

/-- Witness for `timeline_sorted_invariant`: a concrete state reached by an
upload, an analysis run and a manual insertion has a time-sorted marker
list. -/
theorem timeline_sorted_invariant_witness :
    sortedByTime (addMarkerManual "w" (runAnalysis demoDetected demoLoaded)).markers :=
  timeline_sorted_invariant.1 _
    (Reachable.insert "w" (Reachable.analysis (by decide)
      (Reachable.upload "song.mp3" Reachable.init)))

/-- Evaluation helper: rounding the playhead time 0 to milliseconds. -/
theorem roundTo3_zero : roundTo3 0 = 0 := by
  rw [roundTo3, show ((0 : ℚ) * 1000) = ((0 : ℤ) : ℚ) by norm_num, round_intCast]
  norm_num

/-- Evaluation helper: rounding the playhead time 2 to milliseconds. -/
theorem roundTo3_two : roundTo3 2 = 2 := by
  rw [roundTo3, show ((2 : ℚ) * 1000) = ((2000 : ℤ) : ℚ) by norm_num, round_intCast]
  norm_num

/-- Evaluation helper: the marker list after the two colliding manual
insertions. -/
theorem dupState_markers :
    dupState.markers = [newManualMarker "dup" 0, newManualMarker "dup" 0] := by
  simp [dupState, addMarkerManual, initState, sortMarkers, List.insertionSort,
    List.orderedInsert, timeLE, newManualMarker, roundTo3_zero]

/-- Evaluation helper: inserting the manual marker at playhead 2.0 into the
demo timeline holding times 1.0 and 3.0. -/
theorem addManual_demo_markers :
    (addMarkerManual "m2" demoTimeline).markers
      = [demoM1, newManualMarker "m2" 2,
         { id := "m3", time := 3, label := "Beat 2", color := "#8b5cf6" }] := by
  norm_num [addMarkerManual, demoTimeline, demoLoaded, handleFileUpload, initState,
    sortMarkers, List.insertionSort, List.orderedInsert, timeLE, demoM1,
    newManualMarker, roundTo3_two]

/-- C7: manual insertion appends the new marker and stably re-sorts by
`time`: the result is sorted, it is a permutation of the old list plus the
new marker, every existing marker whose time is at most the new marker's
time still precedes it (ties broken by insertion order), and inserting at
time 2.0 into a timeline holding times 1.0 and 3.0 yields time order
`[1.0, 2.0, 3.0]`. -/
theorem addMarkerManual_inserts_sorted (rnd : String) (s : AppState) :
    sortedByTime (addMarkerManual rnd s).markers ∧
      List.Perm (addMarkerManual rnd s).markers
        (s.markers ++ [newManualMarker rnd s.currentTime]) ∧
      (∀ a ∈ s.markers, a.time ≤ (newManualMarker rnd s.currentTime).time →
        List.Sublist [a, newManualMarker rnd s.currentTime] (addMarkerManual rnd s).markers) ∧
      (addMarkerManual "m2" demoTimeline).markers.map Marker.time = [1, 2, 3] := by
  refine ⟨List.sorted_insertionSort timeLE _, List.perm_insertionSort timeLE _, ?_, ?_⟩
  · intro a ha hle
    exact List.pair_sublist_insertionSort (show timeLE a _ from hle)
      ((List.singleton_sublist.mpr ha).append (List.Sublist.refl _))
  · rw [addManual_demo_markers]
    norm_num [demoM1, newManualMarker, roundTo3_two]

/-- Witness for `addMarkerManual_inserts_sorted`: the marker at time 1.0
still precedes the freshly inserted marker in the concrete scenario. -/
theorem addMarkerManual_inserts_sorted_witness :
    List.Sublist [demoM1, newManualMarker "m2" demoTimeline.currentTime]
      (addMarkerManual "m2" demoTimeline).markers :=
  (addMarkerManual_inserts_sorted "m2" demoTimeline).2.2.1 demoM1
    (by simp [demoTimeline])
    (by norm_num [demoM1, newManualMarker, demoTimeline, demoLoaded,
      handleFileUpload, initState, roundTo3_two])

/-- C4 counterexample: marker ids are generated by
`Math.random().toString(36).substr(2, 9)` with no collision check, so the
state reached by two manual insertions whose random strings coincide is
reachable and holds two markers with the same id. -/
theorem marker_ids_can_collide :
    Reachable dupState ∧ ¬ (dupState.markers.map Marker.id).Nodup := by
  refine ⟨Reachable.insert "dup" (Reachable.insert "dup" Reachable.init), ?_⟩
  rw [dupState_markers]
  simp [newManualMarker]

/-- C4 amended: provided every generated id is fresh (the collision-free
idealisation of the random generator) and analysis output is
duplicate-free by id, every reachable timeline is duplicate-free by id,
which is exactly the list handed to the export collaborator. -/
theorem marker_ids_nodup_of_fresh :
    ∀ s, ReachableFresh s → (s.markers.map Marker.id).Nodup := by
  intro s hr
  induction hr with
  | init => simp [initState]
  | upload name _ ih => simp [handleFileUpload]
  | analysis hdet _ ih =>
      unfold runAnalysis
      split
      · exact hdet
      · exact ih
  | @insert rnd s hfresh _ ih =>
      have hperm : List.Perm (addMarkerManual rnd s).markers
          (s.markers ++ [newManualMarker rnd s.currentTime]) :=
        List.perm_insertionSort timeLE _
      have hnd : ((s.markers ++ [newManualMarker rnd s.currentTime]).map Marker.id).Nodup := by
        rw [List.map_append]
        refine List.Nodup.append ih (by simp) ?_
        intro a hma hmb
        simp only [List.map_cons, List.map_nil, List.mem_singleton, newManualMarker] at hmb
        exact hfresh (hmb ▸ hma)
      exact ((hperm.map Marker.id).nodup_iff).mpr hnd
  | delete i _ ih =>
      exact ih.sublist ((List.filter_sublist _).map Marker.id)
  | clear _ ih => simp [clearAllMarkers]
  | jump i t _ ih => exact ih
  | tick t _ ih => exact ih
  | reconfig c _ ih => exact ih

/-- Witness for `marker_ids_nodup_of_fresh`: two manual insertions with
distinct fresh ids give a duplicate-free timeline. -/
theorem marker_ids_nodup_of_fresh_witness :
    ((addMarkerManual "b" (addMarkerManual "a" initState)).markers.map Marker.id).Nodup :=
  marker_ids_nodup_of_fresh _
    (ReachableFresh.insert
      (by simp [addMarkerManual, initState, sortMarkers, List.insertionSort,
        List.orderedInsert, newManualMarker])
      (ReachableFresh.insert (by simp [initState]) ReachableFresh.init))

/-- Appending on strings concatenates the character data. -/
theorem str_data_append (a b : String) : (a ++ b).data = a.data ++ b.data := rfl

/-- A prefix of `l` is a prefix of `l ++ r`. -/
theorem listPre_append {n l : List Char} (r : List Char) (h : listPre n l = true) :
    listPre n (l ++ r) = true := by
  induction n generalizing l with
  | nil => rfl
  | cons a as ih =>
      cases l with
      | nil => simp [listPre] at h
      | cons b bs =>
          rw [List.cons_append]
          simp only [listPre, Bool.and_eq_true] at h ⊢
          exact ⟨h.1, ih h.2⟩

/-- Every list is a prefix of itself followed by anything. -/
theorem listPre_self_append (n r : List Char) : listPre n (n ++ r) = true := by
  induction n with
  | nil => rfl
  | cons a as ih => simp [listPre, ih]

/-- The empty needle occurs in every list. -/
theorem listOccurs_empty_needle (l : List Char) : listOccurs [] l = true := by
  cases l <;> rfl

/-- An occurrence in `b` is an occurrence in `a ++ b`. -/
theorem listOccurs_append_right {n b : List Char} (a : List Char)
    (h : listOccurs n b = true) : listOccurs n (a ++ b) = true := by
  induction a with
  | nil => simpa using h
  | cons c cs ih =>
      rw [List.cons_append]
      simp only [listOccurs, Bool.or_eq_true]
      exact Or.inr ih

/-- An occurrence in `a` is an occurrence in `a ++ b`. -/
theorem listOccurs_append_left {n a : List Char} (b : List Char)
    (h : listOccurs n a = true) : listOccurs n (a ++ b) = true := by
  induction a with
  | nil =>
      cases n with
      | nil => exact listOccurs_empty_needle b
      | cons c cs => simp [listOccurs, listPre] at h
  | cons c cs ih =>
      rw [List.cons_append]
      simp only [listOccurs, Bool.or_eq_true] at h ⊢
      rcases h with h | h
      · exact Or.inl (by simpa using listPre_append b h)
      · exact Or.inr (ih h)

/-- The needle occurs in any list that sandwiches it. -/
theorem listOccurs_middle (a n b : List Char) : listOccurs n (a ++ (n ++ b)) = true := by
  refine listOccurs_append_right a ?_
  cases n with
  | nil => exact listOccurs_empty_needle b
  | cons c cs =>
      simp only [List.cons_append, listOccurs, Bool.or_eq_true]
      exact Or.inl (by simpa using listPre_self_append (c :: cs) b)

/-- Containment survives appending on the right. -/
theorem containsStr_app_right (a b x : String) (h : containsStr b x = true) :
    containsStr (a ++ b) x = true := by
  unfold containsStr at h ⊢
  rw [str_data_append]
  exact listOccurs_append_right _ h

/-- Containment survives appending on the left. -/
theorem containsStr_app_left (a b x : String) (h : containsStr a x = true) :
    containsStr (a ++ b) x = true := by
  unfold containsStr at h ⊢
  rw [str_data_append]
  exact listOccurs_append_left _ h

/-- Every string contains itself. -/
theorem containsStr_self (x : String) : containsStr x x = true := by
  unfold containsStr
  cases hx : x.data with
  | nil => rfl
  | cons c cs =>
      simp only [listOccurs, Bool.or_eq_true]
      exact Or.inl (by simpa using listPre_self_append (c :: cs) [])

/-- Containment lifts from one rendered fragment to the joined list of
fragments. -/
theorem containsStr_joinSep {α : Type} (sep : String) (f : α → String) (x : String) :
    ∀ (ms : List α) (m : α), m ∈ ms → containsStr (f m) x = true →
      containsStr (joinSep sep (ms.map f)) x = true := by
  intro ms
  induction ms with
  | nil => intro m hm; cases hm
  | cons a rest ih =>
      intro m hm h
      rcases List.mem_cons.mp hm with rfl | hmem
      · cases rest with
        | nil => simpa [joinSep] using h
        | cons b bs =>
            have hj : joinSep sep ((m :: b :: bs).map f)
                = f m ++ sep ++ joinSep sep ((b :: bs).map f) := rfl
            rw [hj]
            exact containsStr_app_left _ _ _ (containsStr_app_left _ _ _ h)
      · cases rest with
        | nil => cases hmem
        | cons b bs =>
            have hj : joinSep sep ((a :: b :: bs).map f)
                = f a ++ sep ++ joinSep sep ((b :: bs).map f) := rfl
            rw [hj]
            exact containsStr_app_right _ _ _ (ih m hmem h)

/-- Evaluation helper: the frame the Premiere XML stores for time 1.0. -/
theorem premiereFrame_one : premiereFrame 1 = 60 := by
  rw [premiereFrame, show ((1 : ℚ) * 60) = ((60 : ℤ) : ℚ) by norm_num, round_intCast]

set_option maxRecDepth 40000 in
/-- C6 counterexample: the Final Cut XML artifact of a marker colored
`#3b82f6` does not contain the color at all, so the color is not passed
through verbatim in every format. -/
theorem fcp_color_missing :
    containsStr (exportContent ExportFormat.FINAL_CUT_XML [demoM1] trivialRepr "audio.mp3")
      demoM1.color = false := by
  have h : exportContent ExportFormat.FINAL_CUT_XML [demoM1] trivialRepr "audio.mp3"
      = fcpContent trivialRepr [demoM1] := rfl
  rw [h]
  simp only [fcpContent, List.map_cons, List.map_nil, fcpMarkerXml, demoM1, trivialRepr]
  decide

/-- C6 amended: the label is contained verbatim in all three artifacts
(for the After Effects script provided `JSON.stringify` escapes nothing in
it), while the color is contained verbatim only in the After Effects
script (same proviso); the Premiere and Final Cut XML artifacts do not
mention it. -/
theorem export_label_color_passthrough (ms : List Marker) (m : Marker)
    (tr : ℚ → String) (fn : String) (hm : m ∈ ms) :
    containsStr (exportContent ExportFormat.PREMIERE_XML ms tr fn) m.label = true ∧
      containsStr (exportContent ExportFormat.FINAL_CUT_XML ms tr fn) m.label = true ∧
      (jsonEscape m.label = m.label →
        containsStr (exportContent ExportFormat.AFTER_EFFECTS_JS ms tr fn) m.label = true) ∧
      (jsonEscape m.color = m.color →
        containsStr (exportContent ExportFormat.AFTER_EFFECTS_JS ms tr fn) m.color = true) := by
  refine ⟨?_, ?_, ?_, ?_⟩
  · show containsStr (premiereContent ms fn) m.label = true
    unfold premiereContent
    apply containsStr_app_left
    apply containsStr_app_right
    refine containsStr_joinSep "" premiereMarkerXml m.label ms m hm ?_
    unfold premiereMarkerXml
    apply containsStr_app_left
    apply containsStr_app_left
    apply containsStr_app_left
    apply containsStr_app_left
    apply containsStr_app_left
    apply containsStr_app_right
    exact containsStr_self _
  · show containsStr (fcpContent tr ms) m.label = true
    unfold fcpContent
    apply containsStr_app_left
    apply containsStr_app_right
    refine containsStr_joinSep _ (fcpMarkerXml tr) m.label ms m hm ?_
    unfold fcpMarkerXml
    apply containsStr_app_left
    apply containsStr_app_right
    exact containsStr_self _
  · intro hesc
    show containsStr (jsxContent tr ms) m.label = true
    unfold jsxContent
    apply containsStr_app_left
    apply containsStr_app_right
    unfold jsonMarkers
    apply containsStr_app_left
    apply containsStr_app_right
    refine containsStr_joinSep "," (jsonMarker tr) m.label ms m hm ?_
    unfold jsonMarker
    apply containsStr_app_left
    apply containsStr_app_left
    apply containsStr_app_left
    apply containsStr_app_right
    unfold jsonString
    rw [hesc]
    apply containsStr_app_left
    apply containsStr_app_right
    exact containsStr_self _
  · intro hesc
    show containsStr (jsxContent tr ms) m.color = true
    unfold jsxContent
    apply containsStr_app_left
    apply containsStr_app_right
    unfold jsonMarkers
    apply containsStr_app_left
    apply containsStr_app_right
    refine containsStr_joinSep "," (jsonMarker tr) m.color ms m hm ?_
    unfold jsonMarker
    apply containsStr_app_left
    apply containsStr_app_right
    unfold jsonString
    rw [hesc]
    apply containsStr_app_left
    apply containsStr_app_right
    exact containsStr_self _

/-- Witness for `export_label_color_passthrough` at a concrete marker:
the label appears in all three artifacts and the color in the After
Effects script. -/
theorem export_label_color_passthrough_witness :
    containsStr (exportContent ExportFormat.PREMIERE_XML [demoM1] trivialRepr "audio.mp3")
      demoM1.label = true ∧
      containsStr (exportContent ExportFormat.FINAL_CUT_XML [demoM1] trivialRepr "audio.mp3")
        demoM1.label = true ∧
      containsStr (exportContent ExportFormat.AFTER_EFFECTS_JS [demoM1] trivialRepr "audio.mp3")
        demoM1.label = true ∧
      containsStr (exportContent ExportFormat.AFTER_EFFECTS_JS [demoM1] trivialRepr "audio.mp3")
        demoM1.color = true := by
  have h := export_label_color_passthrough [demoM1] demoM1 trivialRepr "audio.mp3"
    (List.mem_singleton.mpr rfl)
  exact ⟨h.1, h.2.1, h.2.2.1 (by decide), h.2.2.2 (by decide)⟩

/-- C5 counterexample: the Premiere XML export quantizes the marker time
to whole frames at 60 fps, so a marker at 0.005 s is written at frame 0,
i.e. position 0 s, an error of 0.005 s — not millisecond precision. -/
theorem premiere_time_not_ms_precise :
    ¬ (|encodedExportTime ExportFormat.PREMIERE_XML (1/200) - 1/200| < 1/1000) := by
  have hf : premiereFrame (1/200) = 0 := by
    rw [premiereFrame, show ((1 : ℚ)/200 * 60) = (3/10 : ℚ) by norm_num, round_eq]
    have : ((3 : ℚ)/10 + 1/2) = 4/5 := by norm_num
    rw [this]
    rw [Int.floor_eq_zero_iff]
    constructor <;> norm_num
  have he : encodedExportTime ExportFormat.PREMIERE_XML (1/200) = 0 := by
    show ((premiereFrame (1/200) : ℤ) : ℚ) / 60 = 0
    rw [hf]
    norm_num
  rw [he, zero_sub, abs_neg, abs_of_pos (by norm_num : (0 : ℚ) < 1/200)]
  norm_num

/-- C5 amended: the After Effects and Final Cut artifacts encode the
marker time exactly; the Premiere XML artifact encodes it to the nearest
whole frame at 60 fps, so the error is bounded by 1/120 s but can exceed
one millisecond. -/
theorem export_time_precision (fmt : ExportFormat) (t : ℚ) :
    |encodedExportTime fmt t - t| ≤ 1/120 ∧
      (fmt ≠ ExportFormat.PREMIERE_XML → encodedExportTime fmt t = t) := by
  cases fmt with
  | PREMIERE_XML =>
      refine ⟨?_, fun hne => absurd rfl hne⟩
      have h1 : |(premiereFrame t : ℚ) - t * 60| ≤ 1/2 := by
        rw [abs_sub_comm]
        exact abs_sub_round (t * 60)
      have h2 : encodedExportTime ExportFormat.PREMIERE_XML t - t
          = ((premiereFrame t : ℚ) - t * 60) / 60 := by
        show ((premiereFrame t : ℤ) : ℚ) / 60 - t = _
        ring
      rw [h2, abs_div, show |(60 : ℚ)| = 60 by norm_num,
        div_le_iff₀ (by norm_num : (0 : ℚ) < 60)]
      linarith
  | AFTER_EFFECTS_JS =>
      refine ⟨?_, fun _ => rfl⟩
      show |t - t| ≤ 1/120
      simp
  | FINAL_CUT_XML =>
      refine ⟨?_, fun _ => rfl⟩
      show |t - t| ≤ 1/120
      simp

/-- Witness for `export_time_precision`: the After Effects export stores
the time 7/8 s exactly. -/
theorem export_time_precision_witness :
    encodedExportTime ExportFormat.AFTER_EFFECTS_JS (7/8) = 7/8 ∧
      |encodedExportTime ExportFormat.AFTER_EFFECTS_JS (7/8) - 7/8| ≤ 1/120 :=
  ⟨(export_time_precision ExportFormat.AFTER_EFFECTS_JS (7/8)).2 (by decide),
   (export_time_precision ExportFormat.AFTER_EFFECTS_JS (7/8)).1⟩

end BeatMarker
